import Mathlib

/-
Verification of nfisher/sshforward (src/main.go) against its design spec.

The program is embedded shallowly: external I/O results (file open, JSON
decode, agent dial, ssh dial, listener bind, accept, channel open) are
oracle parameters, and each function of the source is translated to a pure
Lean function producing the trace of externally visible effects it performs
on those oracle results.
-/

namespace SSHForward

/-- Endpoint (src/main.go lines 18-22): details to forward a remote service
to a locally bound address. -/
structure Endpoint where
  name : String
  localAddr : String
  remoteAddr : String
  deriving DecidableEq, Repr

/-- Host (src/main.go lines 25-29). -/
structure Host where
  address : String
  endpoints : List Endpoint
  name : String
  deriving DecidableEq, Repr

/-- Config (src/main.go lines 32-35): full list of hosts and endpoints. -/
structure Config where
  environment : String
  hosts : List Host
  deriving DecidableEq, Repr

/- ------------------------------------------------------------------
Relay (handleClient, src/main.go lines 127-152).
A net.Conn is modelled by how many times Close() has been invoked on it;
the relay state is the (local connection, channel) pair.
------------------------------------------------------------------- -/

/-- One net.Conn end of a relay: `closeCalls` counts invocations of its
Close() method. -/
structure ConnState where
  closeCalls : Nat
  deriving DecidableEq, Repr

/-- A connection is closed once Close() ran at least once. -/
def ConnState.Closed (c : ConnState) : Prop := 0 < c.closeCalls

instance : DecidablePred ConnState.Closed :=
  fun c => inferInstanceAs (Decidable (0 < c.closeCalls))

/-- The pair handed to handleClient: the accepted local connection
(`forward`) and the ssh channel (`remote`). -/
structure RelayState where
  forward : ConnState
  remote : ConnState
  deriving DecidableEq, Repr

/-- The close closure built in handleClient (src/main.go lines 128-133): it
unconditionally invokes Close() on both connections; there is no guard flag,
and the Close() results are discarded. -/
def relayClose (s : RelayState) : RelayState :=
  { forward := ⟨s.forward.closeCalls + 1⟩, remote := ⟨s.remote.closeCalls + 1⟩ }

/-- A relay pair as handleClient receives it: neither end closed yet. -/
def relayFresh : RelayState := ⟨⟨0⟩, ⟨0⟩⟩

/-- How a copy-direction goroutine's io.Copy call ends: end-of-stream or an
I/O error (src/main.go lines 136-151). -/
inductive CopyEnd
  | eof
  | ioError
  deriving DecidableEq, Repr

/-- A copy-direction goroutine of handleClient finishing: whether io.Copy
returned by EOF or by error, the deferred close() runs (the error is only
logged). -/
def copyTaskFinish (s : RelayState) (_e : CopyEnd) : RelayState := relayClose s

/-- Follows the spec's words, for comparison with `relayClose`: a close made
"an explicit idempotent operation (guarded by a one-shot state flag)", so a
second invocation does not touch the underlying connections. -/
structure GuardedRelayState where
  closedFlag : Bool
  conns : RelayState
  deriving DecidableEq, Repr

/-- Follows the spec's words: close guarded by a one-shot state flag. -/
def guardedClose (s : GuardedRelayState) : GuardedRelayState :=
  if s.closedFlag then s else ⟨true, relayClose s.conns⟩

/-- A fresh guarded pair: flag unset, no closes. -/
def guardedFresh : GuardedRelayState := ⟨false, relayFresh⟩

/- ------------------------------------------------------------------
Tunnel (forwardEndpoint, src/main.go lines 100-125).
The oracle input is the sequence of results the accept loop observes: each
iteration either fails at local.Accept, or accepts a connection (with an id)
and then observes the client.Dial result (some channel id, or failure).
------------------------------------------------------------------- -/

/-- One iteration's oracle input to the accept loop. -/
inductive Step
  | acceptErr : Step
  | acceptOk (connId : Nat) (dial : Option Nat) : Step
  deriving DecidableEq, Repr

/-- Externally visible actions of forwardEndpoint. `closeListener` and the
closes performed by spawned relays are in the alphabet so their absence is a
statement about the code, which never invokes local.Close. -/
inductive TEvent
  | logBindFail
  | logAcceptErr
  | logDialFail (connId : Nat)
  | spawnRelay (connId chanId : Nat)
  | closeListener
  deriving DecidableEq, Repr

/-- The accept loop of forwardEndpoint (src/main.go lines 110-124).
Returns the emitted events and whether the loop returned (terminated);
`false` means the loop is still accepting (its oracle input ran out while it
blocks in Accept). -/
def acceptLoop : List Step → List TEvent × Bool
  | [] => ([], false)
  | Step.acceptErr :: _ => ([TEvent.logAcceptErr], true)
  | Step.acceptOk c none :: rest =>
      (TEvent.logDialFail c :: (acceptLoop rest).1, (acceptLoop rest).2)
  | Step.acceptOk c (some ch) :: rest =>
      (TEvent.spawnRelay c ch :: (acceptLoop rest).1, (acceptLoop rest).2)

/-- forwardEndpoint (src/main.go lines 100-125): bind the listener; on bind
failure log and return, otherwise run the accept loop. -/
def forwardEndpointRun (bindOk : Bool) (steps : List Step) : List TEvent × Bool :=
  if bindOk then acceptLoop steps else ([TEvent.logBindFail], true)

/-- Local connections that some spawned relay will close: each handleClient
invocation closes its own pair, and forwardEndpoint itself never invokes
Close on an accepted connection. -/
def eventClosesLocal : TEvent → List Nat
  | TEvent.spawnRelay c _ => [c]
  | _ => []

/-- All local-connection ids closed anywhere in an event trace. -/
def closedLocalConns : List TEvent → List Nat
  | [] => []
  | e :: es => eventClosesLocal e ++ closedLocalConns es

/-- True when connection `c` only ever appears in dial-failure iterations of
the oracle input (it is never handed to a relay). -/
def dialFailedOnly (c : Nat) (steps : List Step) : Bool :=
  steps.all fun s =>
    match s with
    | Step.acceptOk c' (some _) => c' != c
    | _ => true

/-- Main launches each tunnel as an independent goroutine; each tunnel's run
is a function of its own oracle inputs only. -/
def runTunnels (inputs : List (Bool × List Step)) : List (List TEvent × Bool) :=
  inputs.map fun p => forwardEndpointRun p.1 p.2

/- ------------------------------------------------------------------
Tunnel state machine (spec section 4.5) read off forwardEndpoint.
------------------------------------------------------------------- -/

/-- The spec's per-Tunnel states. -/
inductive TState
  | unbound
  | listening
  | accepting
  | stopped
  deriving DecidableEq, Repr

/-- The transitions forwardEndpoint can make: bind (or fail terminally),
enter the accept loop, iterate it, stop on accept error. -/
def tunnelAllowed : TState → TState → Bool
  | TState.unbound, TState.listening => true
  | TState.unbound, TState.stopped => true
  | TState.listening, TState.accepting => true
  | TState.accepting, TState.accepting => true
  | TState.accepting, TState.stopped => true
  | _, _ => false

/-- States visited by the accept loop: it enters `accepting` for each
iteration, and moves to `stopped` exactly when Accept fails. -/
def statesLoop : List Step → List TState
  | [] => [TState.accepting]
  | Step.acceptErr :: _ => [TState.accepting, TState.stopped]
  | Step.acceptOk _ _ :: rest => TState.accepting :: statesLoop rest

/-- The state trace of one forwardEndpoint run. -/
def tunnelStates (bindOk : Bool) (steps : List Step) : List TState :=
  if bindOk then TState.unbound :: TState.listening :: statesLoop steps
  else [TState.unbound, TState.stopped]

/- ------------------------------------------------------------------
Orchestrator (main, src/main.go lines 37-97).
------------------------------------------------------------------- -/

/-- Externally visible effects of main, in program order. -/
inductive Effect
  | usage
  | openConfig (filename : String)
  | agentDial (socket : String)
  | sessionDial (addr : String)
  | spawnTunnel (hostAddr : String) (endpointName : String)
  | httpListen (addr : String)
  | logFatal (tag : String)
  deriving DecidableEq, Repr

/-- How main's control flow ends: usage return, log.Fatal exit, or blocking
forever in http.ListenAndServe. -/
inductive MainOutcome
  | usageExit
  | fatalExit
  | blocked
  deriving DecidableEq, Repr

/-- Effects of one successfully dialled host (src/main.go lines 83-94):
the ssh dial, then one tunnel goroutine per endpoint. -/
def hostEffects (h : Host) : List Effect :=
  Effect.sessionDial h.address :: h.endpoints.map fun e => Effect.spawnTunnel h.address e.name

/-- Effects of a list of hosts that all dial successfully, in order. -/
def hostsEffects : List Host → List Effect
  | [] => []
  | h :: t => hostEffects h ++ hostsEffects t

/-- The host loop of main (src/main.go lines 83-94): ssh.Dial each host in
order; on failure log.Fatal ends the process (second component false);
on success spawn the host's endpoint tunnels and continue. -/
def connectHosts : List Host → (String → Bool) → List Effect × Bool
  | [], _ => ([], true)
  | h :: rest, dialOk =>
      if dialOk h.address then
        (hostEffects h ++ (connectHosts rest dialOk).1, (connectHosts rest dialOk).2)
      else
        ([Effect.sessionDial h.address, Effect.logFatal "ssh dial"], false)

/-- main (src/main.go lines 37-97). Oracle parameters: `openOk` is the
os.Open result, `decoded` the JSON decode result, `agentOk` the net.Dial
result on $SSH_AUTH_SOCK, `sshDialOk` the ssh.Dial result per host address.
The final http.ListenAndServe(":0", nil) binds one more TCP socket and
blocks. -/
def mainRun (filename username sshAuthSock : String) (openOk : Bool)
    (decoded : Option Config) (agentOk : Bool) (sshDialOk : String → Bool) :
    List Effect × MainOutcome :=
  if filename = "" ∨ username = "" then ([Effect.usage], MainOutcome.usageExit)
  else if openOk = false then
    ([Effect.openConfig filename, Effect.logFatal "open config"], MainOutcome.fatalExit)
  else
    match decoded with
    | none => ([Effect.openConfig filename, Effect.logFatal "unmarshal config"], MainOutcome.fatalExit)
    | some cfg =>
        if agentOk = false then
          ([Effect.openConfig filename, Effect.agentDial sshAuthSock,
            Effect.logFatal "SSH_AUTH_SOCK"], MainOutcome.fatalExit)
        else
          if (connectHosts cfg.hosts sshDialOk).2 then
            (Effect.openConfig filename :: Effect.agentDial sshAuthSock ::
               (connectHosts cfg.hosts sshDialOk).1 ++ [Effect.httpListen ":0"],
             MainOutcome.blocked)
          else
            (Effect.openConfig filename :: Effect.agentDial sshAuthSock ::
               (connectHosts cfg.hosts sshDialOk).1,
             MainOutcome.fatalExit)

/-- Endpoints of all hosts of a config, in order. -/
def allEndpoints : List Host → List Endpoint
  | [] => []
  | h :: t => h.endpoints ++ allEndpoints t

/-- Local addresses at which tunnels hold a bound listener, given each
bind's outcome. -/
def tunnelListenAddrs (cfg : Config) (bindOk : String → Bool) : List String :=
  (allEndpoints cfg.hosts).filterMap fun e =>
    if bindOk e.localAddr then some e.localAddr else none

/-- The full set of listening sockets the process holds once blocked:
the tunnels' listeners plus the socket bound by
http.ListenAndServe(":0", nil) (src/main.go line 96), whose address
`httpAddr` is assigned by the OS. -/
def mainListenAddrs (cfg : Config) (bindOk : String → Bool) (httpAddr : String) : List String :=
  tunnelListenAddrs cfg bindOk ++ [httpAddr]

/- Concrete fixtures used by counterexamples and witnesses. -/

/-- A concrete endpoint (spec end-to-end scenario 1). -/
def ep1 : Endpoint := ⟨"svc", "127.0.0.1:9001", "10.0.0.5:22"⟩

/-- A concrete host carrying `ep1`. -/
def host1 : Host := ⟨"h1:22", [ep1], "h1"⟩

/-- A concrete host whose ssh dial will be made to fail. -/
def hostBad : Host := ⟨"bad:22", [], "bad"⟩

/-- A concrete host placed after the failing one. -/
def hostPost : Host := ⟨"h3:22", [⟨"late", "127.0.0.1:9003", "10.0.0.7:80"⟩], "h3"⟩

/-- A concrete one-host configuration. -/
def cfg1 : Config := ⟨"prod", [host1]⟩

/- ------------------------------------------------------------------
Helper lemmas (shared).
------------------------------------------------------------------- -/

lemma acceptLoop_dialfail_prefix (n c : Nat) (tail : List Step) :
    acceptLoop (List.replicate n (Step.acceptOk c none) ++ tail)
      = (List.replicate n (TEvent.logDialFail c) ++ (acceptLoop tail).1, (acceptLoop tail).2) := by
  induction n with
  | zero => simp
  | succ k ih => simp [List.replicate_succ, acceptLoop, ih]

lemma closeListener_not_in_acceptLoop (steps : List Step) :
    TEvent.closeListener ∉ (acceptLoop steps).1 := by
  induction steps with
  | nil => simp [acceptLoop]
  | cons s rest ih =>
      cases s with
      | acceptErr => simp [acceptLoop]
      | acceptOk c d => cases d <;> simp [acceptLoop, ih]

lemma closedLocalConns_append (l₁ l₂ : List TEvent) :
    closedLocalConns (l₁ ++ l₂) = closedLocalConns l₁ ++ closedLocalConns l₂ := by
  induction l₁ with
  | nil => simp [closedLocalConns]
  | cons e es ih => simp [closedLocalConns, ih]

lemma dial_failed_not_closed_in_acceptLoop (c : Nat) (steps : List Step)
    (h : dialFailedOnly c steps = true) :
    c ∉ closedLocalConns (acceptLoop steps).1 := by
  induction steps with
  | nil => simp [acceptLoop, closedLocalConns]
  | cons s rest ih =>
      rw [dialFailedOnly, List.all_cons, Bool.and_eq_true] at h
      cases s with
      | acceptErr => simp [acceptLoop, closedLocalConns, eventClosesLocal]
      | acceptOk c' d =>
          cases d with
          | none =>
              simp only [acceptLoop, closedLocalConns, eventClosesLocal, List.nil_append]
              exact ih h.2
          | some ch =>
              have hne : c' ≠ c := by simpa using h.1
              simp only [acceptLoop, closedLocalConns, eventClosesLocal,
                List.cons_append, List.nil_append, List.mem_cons]
              rintro (rfl | hmem)
              · exact hne rfl
              · exact ih h.2 hmem

lemma statesLoop_ne_nil (steps : List Step) : statesLoop steps ≠ [] := by
  cases steps with
  | nil => simp [statesLoop]
  | cons s rest => cases s <;> simp [statesLoop]

lemma statesLoop_head (steps : List Step) :
    (statesLoop steps).head? = some TState.accepting := by
  cases steps with
  | nil => rfl
  | cons s rest => cases s <;> rfl

lemma statesLoop_chain (steps : List Step) :
    List.Chain' (fun a b => tunnelAllowed a b = true) (statesLoop steps) := by
  induction steps with
  | nil => simp [statesLoop]
  | cons s rest ih =>
      cases s with
      | acceptErr => simp [statesLoop, tunnelAllowed]
      | acceptOk c d =>
          rw [statesLoop, List.chain'_cons']
          refine ⟨?_, ih⟩
          intro b hb
          rw [statesLoop_head] at hb
          cases hb
          rfl

lemma statesLoop_no_retry (pre rest : List Step) :
    statesLoop (pre ++ Step.acceptErr :: rest) = statesLoop (pre ++ [Step.acceptErr]) := by
  induction pre with
  | nil => rfl
  | cons s pre' ih =>
      cases s with
      | acceptErr => rfl
      | acceptOk c d => simp [statesLoop, ih]

lemma stopped_not_in_statesLoop_dropLast (steps : List Step) :
    TState.stopped ∉ (statesLoop steps).dropLast := by
  induction steps with
  | nil => simp [statesLoop]
  | cons s rest ih =>
      cases s with
      | acceptErr => simp [statesLoop]
      | acceptOk c d =>
          rw [statesLoop]
          rcases hr : statesLoop rest with _ | ⟨a, l⟩
          · exact absurd hr (statesLoop_ne_nil rest)
          · rw [List.dropLast_cons₂, List.mem_cons]
            rintro (h | h)
            · cases h
            · rw [hr] at ih
              exact ih h

lemma connectHosts_all_ok (hosts : List Host) (dialOk : String → Bool)
    (h : ∀ x ∈ hosts, dialOk x.address = true) :
    connectHosts hosts dialOk = (hostsEffects hosts, true) := by
  induction hosts with
  | nil => rfl
  | cons x rest ih =>
      have hx : dialOk x.address = true := h x (List.mem_cons_self x rest)
      have hrest := ih fun y hy => h y (List.mem_cons_of_mem x hy)
      simp [connectHosts, hx, hrest, hostsEffects]

lemma connectHosts_fail_at (pre post : List Host) (bad : Host) (dialOk : String → Bool)
    (hpre : ∀ x ∈ pre, dialOk x.address = true) (hbad : dialOk bad.address = false) :
    connectHosts (pre ++ bad :: post) dialOk
      = (hostsEffects pre ++ [Effect.sessionDial bad.address, Effect.logFatal "ssh dial"],
         false) := by
  induction pre with
  | nil => simp [connectHosts, hbad, hostsEffects]
  | cons x pre' ih =>
      have hx : dialOk x.address = true := hpre x (List.mem_cons_self x pre')
      have hrest := ih fun y hy => hpre y (List.mem_cons_of_mem x hy)
      simp [connectHosts, hx, hrest, hostsEffects]

/- ------------------------------------------------------------------
Claim theorems.
------------------------------------------------------------------- -/

/-- C1 counterexample: handleClient's close closure is NOT guarded by a
one-shot state flag. Invoking it a second time on a fresh pair invokes the
underlying Close() a second time on each connection (count 2), whereas the
spec's flag-guarded close would leave the count at 1. -/
theorem relayClose_no_one_shot_flag_cex :
    (relayClose (relayClose relayFresh)).forward.closeCalls = 2
    ∧ (relayClose (relayClose relayFresh)).remote.closeCalls = 2
    ∧ (guardedClose (guardedClose guardedFresh)).conns.forward.closeCalls = 1
    ∧ (relayClose (relayClose relayFresh)).forward.closeCalls
        ≠ (guardedClose (guardedClose guardedFresh)).conns.forward.closeCalls := by
  refine ⟨rfl, rfl, rfl, ?_⟩
  decide

/-- C1 (amended): invoking handleClient's close a second time, from the
other racing copy-direction task, does not corrupt the relay's state — both
connections stay closed — but it is not guarded by a one-shot flag: each
invocation calls Close() again on both underlying connections, so tolerating
the repeated close is left to the underlying connection objects. -/
theorem relayClose_double_hits_underlying_twice :
    ∀ s : RelayState,
      relayClose (relayClose s)
          = ⟨⟨s.forward.closeCalls + 2⟩, ⟨s.remote.closeCalls + 2⟩⟩
      ∧ (relayClose (relayClose s)).forward.Closed
      ∧ (relayClose (relayClose s)).remote.Closed := by
  intro s
  refine ⟨rfl, ?_, ?_⟩ <;> exact Nat.succ_pos _

/-- C2: whichever copy-direction task of handleClient finishes first —
whether its io.Copy ended by end-of-stream or by an I/O error — runs the
deferred close(), which closes both the local connection and the channel:
once either direction ends, both ends of the pair are closed. -/
theorem copy_finish_closes_both_ends :
    ∀ (s : RelayState) (e : CopyEnd),
      (copyTaskFinish s e).forward.Closed ∧ (copyTaskFinish s e).remote.Closed := by
  intro s e
  exact ⟨Nat.succ_pos _, Nat.succ_pos _⟩

/-- C3 counterexample: with one configured endpoint at 127.0.0.1:9001 and
every bind succeeding, the process's listening sockets are that endpoint's
listener PLUS the socket bound by http.ListenAndServe(":0", nil) at an
OS-assigned address — a listening socket at an address that is no configured
endpoint's local address, refuting "no listening socket is bound at any
other address". -/
theorem main_extra_http_listener_cex :
    mainListenAddrs cfg1 (fun _ => true) "127.0.0.1:43210"
        = ["127.0.0.1:9001", "127.0.0.1:43210"]
    ∧ (allEndpoints cfg1.hosts).map Endpoint.localAddr = ["127.0.0.1:9001"]
    ∧ "127.0.0.1:43210" ∉ (allEndpoints cfg1.hosts).map Endpoint.localAddr := by
  refine ⟨rfl, rfl, ?_⟩
  decide

/-- C3 (amended): after all tunnels are launched the process blocks
indefinitely, but it blocks inside http.ListenAndServe(":0", nil), so the
exposed network surface is one TCP listener per successfully bound endpoint
at its configured local address plus one extra listening socket at an
OS-assigned address. -/
theorem main_blocks_with_extra_listener (filename username sock httpAddr : String)
    (cfg : Config) (dialOk bindOk : String → Bool)
    (hf : filename ≠ "") (hu : username ≠ "")
    (hd : ∀ x ∈ cfg.hosts, dialOk x.address = true) :
    (mainRun filename username sock true (some cfg) true dialOk).2 = MainOutcome.blocked
    ∧ (mainRun filename username sock true (some cfg) true dialOk).1
        = Effect.openConfig filename :: Effect.agentDial sock ::
            hostsEffects cfg.hosts ++ [Effect.httpListen ":0"]
    ∧ mainListenAddrs cfg bindOk httpAddr = tunnelListenAddrs cfg bindOk ++ [httpAddr] := by
  have hc := connectHosts_all_ok cfg.hosts dialOk hd
  refine ⟨?_, ?_, rfl⟩ <;> simp [mainRun, hf, hu, hc]

/-- C3 (amended) witness at a concrete configuration. -/
theorem main_blocks_with_extra_listener_witness :
    (mainRun "env.json" "ops" "/tmp/agent" true (some cfg1) true (fun _ => true)).2
        = MainOutcome.blocked
    ∧ (mainRun "env.json" "ops" "/tmp/agent" true (some cfg1) true (fun _ => true)).1
        = Effect.openConfig "env.json" :: Effect.agentDial "/tmp/agent" ::
            hostsEffects cfg1.hosts ++ [Effect.httpListen ":0"]
    ∧ mainListenAddrs cfg1 (fun _ => true) "127.0.0.1:43210"
        = tunnelListenAddrs cfg1 (fun _ => true) ++ ["127.0.0.1:43210"] := by
  exact main_blocks_with_extra_listener "env.json" "ops" "/tmp/agent" "127.0.0.1:43210"
    cfg1 (fun _ => true) (fun _ => true) (by decide) (by decide)
    (by intro x _; rfl)

/-- C4: channel-open (remote dial) failures are logged and the accept loop
continues: after any number n of dial failures the tunnel still relays the
next accepted connection, the loop has not terminated, and forwardEndpoint
never closes its listener on any input. -/
theorem dial_failure_keeps_tunnel_accepting :
    (∀ (n c c' ch : Nat),
        forwardEndpointRun true
            (List.replicate n (Step.acceptOk c none) ++ [Step.acceptOk c' (some ch)])
          = (List.replicate n (TEvent.logDialFail c) ++ [TEvent.spawnRelay c' ch], false))
    ∧ ∀ (bindOk : Bool) (steps : List Step),
        TEvent.closeListener ∉ (forwardEndpointRun bindOk steps).1 := by
  constructor
  · intro n c c' ch
    rw [forwardEndpointRun, if_pos rfl, acceptLoop_dialfail_prefix]
    rfl
  · intro bindOk steps
    cases bindOk with
    | false => simp [forwardEndpointRun]
    | true => simpa [forwardEndpointRun] using closeListener_not_in_acceptLoop steps

/-- C5: the error branch of a failed channel open only logs — it leaves the
accepted local connection untouched: a connection that only ever appears in
dial-failure iterations is never closed by the tunnel or by any spawned
relay (it is leaked, not closed). -/
theorem dial_failed_conn_never_closed :
    (∀ (c : Nat) (rest : List Step),
        acceptLoop (Step.acceptOk c none :: rest)
          = (TEvent.logDialFail c :: (acceptLoop rest).1, (acceptLoop rest).2))
    ∧ ∀ (bindOk : Bool) (steps : List Step) (c : Nat),
        dialFailedOnly c steps = true →
        c ∉ closedLocalConns (forwardEndpointRun bindOk steps).1 := by
  constructor
  · intro c rest
    rfl
  · intro bindOk steps c h
    cases bindOk with
    | false => simp [forwardEndpointRun, closedLocalConns, eventClosesLocal]
    | true =>
        simpa [forwardEndpointRun] using dial_failed_not_closed_in_acceptLoop c steps h

/-- C5 witness: a concrete run with one dial failure on connection 5. -/
theorem dial_failed_conn_never_closed_witness :
    dialFailedOnly 5 [Step.acceptOk 5 none, Step.acceptOk 7 (some 9)] = true
    ∧ 5 ∉ closedLocalConns
        (forwardEndpointRun true [Step.acceptOk 5 none, Step.acceptOk 7 (some 9)]).1 := by
  exact ⟨by decide,
    dial_failed_conn_never_closed.2 true [Step.acceptOk 5 none, Step.acceptOk 7 (some 9)] 5
      (by decide)⟩

/-- C6: main dials the configured hosts sequentially in configuration
order; on the first ssh.Dial failure it log.Fatal-exits immediately, so the
trace holds exactly the effects of the preceding hosts followed by the
failed dial, and the hosts after the failing one are never attempted: the
result does not depend on `post` at all. -/
theorem sessions_sequential_abort_on_first_failure
    (filename username sock env : String) (pre post : List Host) (bad : Host)
    (dialOk : String → Bool) (hf : filename ≠ "") (hu : username ≠ "")
    (hpre : ∀ x ∈ pre, dialOk x.address = true) (hbad : dialOk bad.address = false) :
    mainRun filename username sock true (some ⟨env, pre ++ bad :: post⟩) true dialOk
      = (Effect.openConfig filename :: Effect.agentDial sock ::
           (hostsEffects pre ++ [Effect.sessionDial bad.address, Effect.logFatal "ssh dial"]),
         MainOutcome.fatalExit)
    ∧ mainRun filename username sock true (some ⟨env, pre ++ bad :: post⟩) true dialOk
        = mainRun filename username sock true (some ⟨env, pre ++ [bad]⟩) true dialOk := by
  have h₁ := connectHosts_fail_at pre post bad dialOk hpre hbad
  have h₂ := connectHosts_fail_at pre [] bad dialOk hpre hbad
  constructor
  · simp [mainRun, hf, hu, h₁]
  · simp [mainRun, hf, hu, h₁, h₂]

/-- C6 witness: one good host, then a failing one, then a host that must
never be dialled. -/
theorem sessions_sequential_abort_witness :
    mainRun "env.json" "ops" "/tmp/agent" true
        (some ⟨"prod", [host1] ++ hostBad :: [hostPost]⟩) true
        (fun a => a != "bad:22")
      = (Effect.openConfig "env.json" :: Effect.agentDial "/tmp/agent" ::
           (hostsEffects [host1] ++
             [Effect.sessionDial hostBad.address, Effect.logFatal "ssh dial"]),
         MainOutcome.fatalExit) := by
  exact (sessions_sequential_abort_on_first_failure "env.json" "ops" "/tmp/agent" "prod"
    [host1] [hostPost] hostBad (fun a => a != "bad:22") (by decide) (by decide)
    (by intro x hx; simp at hx; subst hx; decide) (by decide)).1

/-- C7: a bind failure makes forwardEndpoint log and return before any
accept — its whole trace is the bind-failure log, so it never accepts,
relays, or reaches an accept error — and tunnels are independent: changing
tunnel i's oracle inputs leaves every other tunnel's run unchanged. -/
theorem bind_failure_isolated :
    (∀ steps : List Step,
        forwardEndpointRun false steps = ([TEvent.logBindFail], true))
    ∧ ∀ (inputs : List (Bool × List Step)) (i j : Nat) (x : Bool × List Step),
        i ≠ j → (runTunnels (inputs.set i x))[j]? = (runTunnels inputs)[j]? := by
  constructor
  · intro steps
    rfl
  · intro inputs i j x hij
    simp [runTunnels, List.getElem?_set_ne hij]

/-- C7 witness: updating tunnel 0's inputs leaves tunnel 1's run unchanged. -/
theorem bind_failure_isolated_witness :
    (0 : Nat) ≠ 1
    ∧ (runTunnels ([(true, []), (false, [])].set 0 (false, [Step.acceptErr])))[1]?
        = (runTunnels [(true, []), (false, [])])[1]? := by
  exact ⟨by decide,
    bind_failure_isolated.2 [(true, []), (false, [])] 0 1 (false, [Step.acceptErr])
      (by decide)⟩

/-- C8: the state trace of every forwardEndpoint run follows the machine
Unbound -> Listening -> Accepting (loop) -> Stopped; a bind error goes
directly from Unbound to Stopped without ever entering Accepting; everything
after the first accept error is ignored (no retry, no rebind); and Stopped
is terminal — it occurs only as the last state of a trace. -/
theorem tunnel_state_machine :
    (∀ (bindOk : Bool) (steps : List Step),
        List.Chain' (fun a b => tunnelAllowed a b = true) (tunnelStates bindOk steps))
    ∧ (∀ steps : List Step,
        tunnelStates false steps = [TState.unbound, TState.stopped]
        ∧ TState.accepting ∉ tunnelStates false steps)
    ∧ (∀ (bindOk : Bool) (pre rest : List Step),
        tunnelStates bindOk (pre ++ Step.acceptErr :: rest)
          = tunnelStates bindOk (pre ++ [Step.acceptErr]))
    ∧ ∀ (bindOk : Bool) (steps : List Step),
        TState.stopped ∉ (tunnelStates bindOk steps).dropLast := by
  refine ⟨?_, ?_, ?_, ?_⟩
  · intro bindOk steps
    cases bindOk with
    | false => simp [tunnelStates, tunnelAllowed]
    | true =>
        rw [tunnelStates, if_pos rfl]
        rw [List.chain'_cons' ]
        refine ⟨fun b hb => by cases hb; rfl, ?_⟩
        rw [List.chain'_cons']
        refine ⟨?_, statesLoop_chain steps⟩
        intro b hb
        rw [statesLoop_head] at hb
        cases hb
        rfl
  · intro steps
    refine ⟨rfl, ?_⟩
    simp [tunnelStates]
  · intro bindOk pre rest
    cases bindOk with
    | false => rfl
    | true => simp [tunnelStates, statesLoop_no_retry]
  · intro bindOk steps
    cases bindOk with
    | false => simp [tunnelStates]
    | true =>
        rw [tunnelStates, if_pos rfl]
        rcases hs : statesLoop steps with _ | ⟨a, l⟩
        · exact absurd hs (statesLoop_ne_nil steps)
        · rw [List.dropLast_cons₂, List.dropLast_cons₂, List.mem_cons, List.mem_cons]
          rintro (h | h | h)
          · cases h
          · cases h
          · have := stopped_not_in_statesLoop_dropLast steps
            rw [hs] at this
            exact this h

/-- C9: when the net.Dial on $SSH_AUTH_SOCK fails, main log.Fatal-exits
right after opening and decoding the config: no host session is ever
attempted, no tunnel is spawned, and no listening socket of any kind is
bound. -/
theorem agent_socket_failure_fatal_early (filename username sock : String)
    (cfg : Config) (dialOk : String → Bool)
    (hf : filename ≠ "") (hu : username ≠ "") :
    mainRun filename username sock true (some cfg) false dialOk
      = ([Effect.openConfig filename, Effect.agentDial sock,
          Effect.logFatal "SSH_AUTH_SOCK"], MainOutcome.fatalExit)
    ∧ (∀ a, Effect.sessionDial a ∉ (mainRun filename username sock true (some cfg) false dialOk).1)
    ∧ (∀ a n, Effect.spawnTunnel a n ∉ (mainRun filename username sock true (some cfg) false dialOk).1)
    ∧ ∀ a, Effect.httpListen a ∉ (mainRun filename username sock true (some cfg) false dialOk).1 := by
  refine ⟨?_, ?_, ?_, ?_⟩ <;> simp [mainRun, hf, hu]

/-- C9 witness at concrete startup parameters. -/
theorem agent_socket_failure_fatal_early_witness :
    mainRun "env.json" "ops" "/nonexistent/agent.sock" true (some cfg1) false (fun _ => true)
      = ([Effect.openConfig "env.json", Effect.agentDial "/nonexistent/agent.sock",
          Effect.logFatal "SSH_AUTH_SOCK"], MainOutcome.fatalExit) := by
  exact (agent_socket_failure_fatal_early "env.json" "ops" "/nonexistent/agent.sock"
    cfg1 (fun _ => true) (by decide) (by decide)).1

/-- C10: if the config-file flag or the username flag is empty, main shows
usage and returns before any other effect: the file is never opened, the
agent socket never dialled, no session attempted, no listener bound. -/
theorem missing_flags_usage_no_side_effects (filename username sock : String)
    (openOk : Bool) (decoded : Option Config) (agentOk : Bool) (dialOk : String → Bool)
    (h : filename = "" ∨ username = "") :
    mainRun filename username sock openOk decoded agentOk dialOk
        = ([Effect.usage], MainOutcome.usageExit)
    ∧ (∀ a, Effect.openConfig a ∉ (mainRun filename username sock openOk decoded agentOk dialOk).1)
    ∧ (∀ a, Effect.agentDial a ∉ (mainRun filename username sock openOk decoded agentOk dialOk).1)
    ∧ (∀ a, Effect.sessionDial a ∉ (mainRun filename username sock openOk decoded agentOk dialOk).1)
    ∧ ∀ a, Effect.httpListen a ∉ (mainRun filename username sock openOk decoded agentOk dialOk).1 := by
  have hm : mainRun filename username sock openOk decoded agentOk dialOk
      = ([Effect.usage], MainOutcome.usageExit) := by
    rw [mainRun.eq_def, if_pos h]
  refine ⟨hm, ?_, ?_, ?_, ?_⟩ <;> intro a <;> rw [hm] <;> simp

/-- C10 witness: username empty at concrete startup parameters. -/
theorem missing_flags_usage_no_side_effects_witness :
    mainRun "env.json" "" "/tmp/agent" true (some cfg1) true (fun _ => true)
      = ([Effect.usage], MainOutcome.usageExit) := by
  exact (missing_flags_usage_no_side_effects "env.json" "" "/tmp/agent" true (some cfg1) true
    (fun _ => true) (Or.inr rfl)).1

end SSHForward
